import Mathlib

/-!
Shallow embedding of `muda/deformers/filter.py` (repository lylyhan/muda):
the passband classifier `checkfreqinband`, the four annotation adapters of
`AbstractFilter`, and the four state generators `Filter`, `RandomLPFilter`,
`RandomHPFilter` and `RandomBPFilter`, together with proofs about them.

Conventions used throughout: Python numbers (ints and floats) are modelled as
`ℚ`; Python exceptions as `Except PyErr`; the external libraries `librosa`
(musical-unit conversions) and `scipy.signal.cheb2ord` (filter-order
estimation) are abstracted as records of opaque functions, since their
numeric outputs never influence the verified properties.  Randomness is
modelled by an arbitrary stream `draws : ℕ → ℚ` of standard-normal draws.
-/

namespace Muda

deriving instance DecidableEq for Except

/-- A Python value as it flows through the classifier and the adapters: a
number (Python `int` or `float`, modelled as `ℚ`), a string, a pair (a Python
2-tuple), or Python `None`. -/
inductive PyVal where
  | num (x : ℚ)
  | str (s : String)
  | tup (a b : ℚ)
  | none
  deriving DecidableEq

/-- Python exceptions the embedded code can raise.  `fuelOut` is a model
artifact marking a run of the `RandomBPFilter` rejection loop that has not
terminated within the supplied fuel; it never occurs in a terminated run. -/
inductive PyErr where
  | valueError (msg : String)
  | typeError
  | nameError (n : String)
  | keyError (k : String)
  | indexError
  | fuelOut
  deriving DecidableEq

/-- The state dictionary built by the generators (a Python `dict`).  A field
is `Option.none` when the corresponding key is absent.  `AbstractFilter.states`
(filter.py lines 87-92) creates the dict with only the `nyquist` key. -/
structure StateDict where
  nyquist : Option ℚ := Option.none
  btype : Option String := Option.none
  cut_off : Option PyVal := Option.none
  order : Option ℕ := Option.none
  attenuation : Option ℚ := Option.none
  deriving DecidableEq, Inhabited

/-- The external unit conversions from `librosa`, abstracted as opaque
functions: the verified properties never depend on their numeric values. -/
structure Librosa where
  midi_to_hz : ℚ → ℚ
  note_to_hz : String → ℚ

/-- The external filter-order estimator `scipy.signal.cheb2ord`, abstracted to
its first return value (the estimated order), in its scalar-edge and
band-edge (pair) argument shapes.  Arguments are passband edge, stopband
edge, passband ripple, stopband attenuation, sampling rate.  The call is
fallible: `cheb2ord` raises `ValueError` when the requested edges are
numerically infeasible for the sample rate — its order formula takes
`int(ceil(arccosh(...)))` of a design ratio, and a stopband edge pushed
outside the band `(0, nyquist)` makes that ratio smaller than one, so
`arccosh` returns NaN and the `int(...)` conversion raises — hence the
`Except`-valued result type. -/
structure SciPy where
  cheb2ordScalar : ℚ → ℚ → ℚ → ℚ → ℚ → Except PyErr ℕ
  cheb2ordPair : ℚ × ℚ → ℚ × ℚ → ℚ → ℚ → ℚ → Except PyErr ℕ

/-- Python `a <= b`: defined between two numbers, `TypeError` otherwise. -/
def pyLe (a b : PyVal) : Except PyErr Bool :=
  match a, b with
  | .num x, .num y => .ok (decide (x ≤ y))
  | _, _ => .error .typeError

/-- Python `a >= b`: defined between two numbers, `TypeError` otherwise. -/
def pyGe (a b : PyVal) : Except PyErr Bool :=
  match a, b with
  | .num x, .num y => .ok (decide (y ≤ x))
  | _, _ => .error .typeError

/-- Embeds filter.py lines 40-46 (the unit-conversion prologue of
`checkfreqinband`).  The result `Option.none` means the local name
`frequency` was never bound because `datatype` matched no branch; using it
later raises `NameError`.  Feeding a non-numeric value to
`librosa.midi_to_hz`, or a non-string to `librosa.note_to_hz`, is modelled
as a `TypeError` from the external library. -/
def convertToHz (lib : Librosa) (freq : PyVal) (datatype : String) :
    Except PyErr (Option PyVal) :=
  if datatype = "midi" then
    match freq with
    | .num m => .ok (some (.num (lib.midi_to_hz m)))
    | _ => .error .typeError
  else if datatype = "hz" then
    .ok (some freq)
  else if datatype = "pitchclass" then
    match freq with
    | .str s => .ok (some (.num (lib.note_to_hz s)))
    | _ => .error .typeError
  else
    .ok Option.none

/-- Embeds filter.py lines 48-56: derive the passband bounds `(low, high)`
from the state dict, given the already looked-up `btype` string.  The source
uses a plain `else` for the high-pass case, so any `btype` other than
`"bandpass"` and `"low"` takes the `(cut_off, nyquist)` branch.  Missing keys
raise `KeyError`; unpacking a non-pair as `low, high` raises `TypeError`. -/
def passbandBounds (state : StateDict) (btype : String) :
    Except PyErr (PyVal × PyVal) :=
  if btype = "bandpass" then
    match state.cut_off with
    | Option.none => .error (.keyError "cut_off")
    | some (.tup lo hi) => .ok (.num lo, .num hi)
    | some _ => .error .typeError
  else if btype = "low" then
    match state.cut_off with
    | Option.none => .error (.keyError "cut_off")
    | some c => .ok (.num 0, c)
  else
    match state.nyquist with
    | Option.none => .error (.keyError "nyquist")
    | some nyq =>
      match state.cut_off with
      | Option.none => .error (.keyError "cut_off")
      | some c => .ok (c, .num nyq)

/-- Embeds `checkfreqinband` (filter.py lines 17-64): convert the frequency to
Hertz, derive the passband bounds from the state, and return
`(freq, True)` when the converted frequency is strictly inside the band and
`(None, False)` otherwise (bounds themselves count as out of band). -/
def checkfreqinband (lib : Librosa) (freq : PyVal) (state : StateDict)
    (datatype : String) : Except PyErr (PyVal × Bool) :=
  match convertToHz lib freq datatype with
  | .error e => .error e
  | .ok ofreq =>
    match state.btype with
    | Option.none => .error (.keyError "btype")
    | some btype =>
      match passbandBounds state btype with
      | .error e => .error e
      | .ok (low, high) =>
        match ofreq with
        | Option.none => .error (.nameError "frequency")
        | some frequency =>
          match pyLe frequency low with
          | .error e => .error e
          | .ok true => .ok (.none, false)
          | .ok false =>
            match pyGe frequency high with
            | .error e => .error e
            | .ok true => .ok (.none, false)
            | .ok false => .ok (freq, true)

/-- One observation of a jams annotation: `time`, `duration`, `confidence`
and a kind-dependent `value`. -/
structure Obs (V : Type) where
  time : ℚ
  duration : ℚ
  confidence : PyVal
  value : V
  deriving DecidableEq

/-- The `value` of a `pitch_contour` observation. -/
structure ContourValue where
  index : ℤ
  frequency : PyVal
  voiced : Bool
  deriving DecidableEq

/-- The `value` of a `pitch_class` observation: a tonic string and an octave
integer. -/
structure ClassValue where
  tonic : String
  pitch : ℤ
  deriving DecidableEq

/-- Python `int(c)` applied to a one-character string: its digit value, or
`ValueError` (modelled by `Option.none`) when the character is no digit. -/
def pyIntOfChar (c : Char) : Option ℤ :=
  if c.isDigit then some ((c.toNat : ℤ) - 48) else Option.none

/-- Python `s[-1]` on a string: the last character, or an `IndexError`
(modelled by `Option.none`) on the empty string. -/
def pyLast (s : String) : Option Char :=
  s.data.getLast?

/-- Python `s[:-1]` on a string: all characters except the last. -/
def pySliceInit (s : String) : String :=
  ⟨s.data.dropLast⟩

/-- Embeds `AbstractFilter.filter_contour` (filter.py lines 119-133): every
observation is re-emitted with the same time, duration, confidence and
`index`, with `frequency` and `voiced` replaced by the classifier result. -/
def filter_contour (lib : Librosa) (state : StateDict) :
    List (Obs ContourValue) → Except PyErr (List (Obs ContourValue))
  | [] => .ok []
  | obs :: rest =>
    match checkfreqinband lib obs.value.frequency state "hz" with
    | .error e => .error e
    | .ok (new_freq, voice) =>
      match filter_contour lib state rest with
      | .error e => .error e
      | .ok rest1 =>
        .ok ({ time := obs.time, duration := obs.duration,
               confidence := obs.confidence,
               value := { index := obs.value.index, frequency := new_freq,
                          voiced := voice } } :: rest1)

/-- Embeds `AbstractFilter.filter_hz` (filter.py lines 135-146): re-emit an
observation, with `value` replaced by the classifier frequency, only when the
classifier reports it in band. -/
def filter_hz (lib : Librosa) (state : StateDict) :
    List (Obs PyVal) → Except PyErr (List (Obs PyVal))
  | [] => .ok []
  | obs :: rest =>
    match checkfreqinband lib obs.value state "hz" with
    | .error e => .error e
    | .ok (new_freq, voice) =>
      match filter_hz lib state rest with
      | .error e => .error e
      | .ok rest1 =>
        if voice then .ok ({ obs with value := new_freq } :: rest1)
        else .ok rest1

/-- Embeds `AbstractFilter.filter_midi` (filter.py lines 148-159): same drop
semantics as `filter_hz`, with the frequency classified as a MIDI number. -/
def filter_midi (lib : Librosa) (state : StateDict) :
    List (Obs PyVal) → Except PyErr (List (Obs PyVal))
  | [] => .ok []
  | obs :: rest =>
    match checkfreqinband lib obs.value state "midi" with
    | .error e => .error e
    | .ok (new_midi, voice) =>
      match filter_midi lib state rest with
      | .error e => .error e
      | .ok rest1 =>
        if voice then .ok ({ obs with value := new_midi } :: rest1)
        else .ok rest1

/-- Embeds `AbstractFilter.filter_class` (filter.py lines 161-176): classify
`value["tonic"] + str(value["pitch"])` as a pitch class; when in band, re-emit
with `tonic` set to the returned token minus its last character and `pitch`
to the integer value of that last character. -/
def filter_class (lib : Librosa) (state : StateDict) :
    List (Obs ClassValue) → Except PyErr (List (Obs ClassValue))
  | [] => .ok []
  | obs :: rest =>
    match checkfreqinband lib
        (.str (obs.value.tonic ++ toString obs.value.pitch)) state "pitchclass" with
    | .error e => .error e
    | .ok (new_freq, voice) =>
      if voice then
        match new_freq with
        | .str t =>
          match pyLast t with
          | Option.none => .error .indexError
          | some ch =>
            match pyIntOfChar ch with
            | Option.none => .error (.valueError "invalid literal for int")
            | some k =>
              match filter_class lib state rest with
              | .error e => .error e
              | .ok rest1 =>
                .ok ({ obs with
                       value := { tonic := pySliceInit t, pitch := k } } :: rest1)
        | _ => .error .typeError
      else
        match filter_class lib state rest with
        | .error e => .error e
        | .ok rest1 => .ok rest1

/-- The deformer object built by `Filter.__init__`: band type, attenuation and
the parsed list of cutoff entries (numbers for low/high, pairs for
bandpass). -/
structure FilterD where
  btype : String
  attenuation : ℚ
  cutoff : List PyVal
  deriving DecidableEq

/-- The shapes of the `cutoff` constructor argument of `Filter` that the
source distinguishes with `isinstance` checks: a scalar, a 2-tuple, a list of
scalars, a list of 2-tuples, or a list of lists.  Python tuples are modelled
as pairs, and heterogeneous lists (mixing tuples and non-tuples) are not
modelled; no claim depends on them. -/
inductive CutoffArg where
  | num (x : ℚ)
  | tup (a b : ℚ)
  | listNum (xs : List ℚ)
  | listTup (xs : List (ℚ × ℚ))
  | listList (xs : List (List ℚ))
  deriving DecidableEq

/-- Embeds `Filter.__init__` (filter.py lines 216-244).  For a non-bandpass
`btype`, indexing `cutoff[0]` on an empty list raises `IndexError`, and
`np.atleast_1d(...).flatten()` on a list of equal-length lists flattens it;
a ragged list of lists (rejected by numpy) is modelled as a `ValueError`. -/
def Filter.init (btype : String) (attenuation : ℚ) (cutoff : CutoffArg) :
    Except PyErr FilterD :=
  if btype = "bandpass" then
    match cutoff with
    | .tup a b => .ok ⟨btype, attenuation, [.tup a b]⟩
    | .listNum [] => .ok ⟨btype, attenuation, []⟩
    | .listNum (_ :: _) =>
      .error (.valueError "bandpass filter cutoff must be tuple or list of tuples")
    | .listTup xs => .ok ⟨btype, attenuation, xs.map fun p => PyVal.tup p.1 p.2⟩
    | .listList xs =>
      if xs.all fun l => l.length = 2 then
        .ok ⟨btype, attenuation, xs.map fun l => PyVal.tup (l.getD 0 0) (l.getD 1 0)⟩
      else .error (.valueError "bandpass filter cutoff must be tuple or list of tuples")
    | .num _ =>
      .error (.valueError "bandpass filter cutoff must be tuple or list of tuples")
  else
    match cutoff with
    | .tup _ _ =>
      .error (.valueError "low/high pass filter cutoff must be float or list of floats")
    | .listTup [] => .error .indexError
    | .listTup (_ :: _) =>
      .error (.valueError "low/high pass filter cutoff must be float or list of floats")
    | .num x => .ok ⟨btype, attenuation, [.num x]⟩
    | .listNum [] => .error .indexError
    | .listNum (x :: xs) => .ok ⟨btype, attenuation, (x :: xs).map PyVal.num⟩
    | .listList [] => .error .indexError
    | .listList (l :: ls) =>
      if (l :: ls).all fun m => m.length = l.length then
        .ok ⟨btype, attenuation, ((l :: ls).foldr (· ++ ·) []).map PyVal.num⟩
      else .error (.valueError "setting an array element with a sequence")

/-- One finished run of a `states()` generator: the contents of the single
shared state dict at each `yield`, the exception that ended the run (if any),
and the contents of the dict when the run stopped.  Every `yield state` in
the source returns a reference to the one dict allocated in
`AbstractFilter.states` (filter.py lines 87-92) and mutated in place, so
`yields` records snapshots of that dict, not independent objects. -/
structure GenResult where
  yields : List StateDict
  error : Option PyErr
  final : StateDict
  deriving DecidableEq, Inhabited

/-- The contents of the i-th yielded descriptor as observed once the whole
`states()` run has finished.  Because every `yield state` returns a reference
to the single dict allocated at filter.py lines 89-92, which the loop mutates
in place before each later yield, a read through any previously yielded
descriptor sees the final contents of the dict, independently of `i`. -/
def GenResult.observedAfterRun (r : GenResult) (_i : ℕ) : StateDict :=
  r.final

/-- Loop of `Filter.states` for `btype = "bandpass"` (filter.py lines
251-260), threading the single shared state dict.  The dict assignment order
follows the source: `cut_off` is written at line 256 before the fallible
`cheb2ord` call of line 257, so when that call raises, the generator stops
with the shared dict already carrying the new `cut_off` but the old `order`,
`attenuation` and `btype`.  Result: the dict snapshot at each yield, the
terminating exception if any, and the final dict. -/
def Filter.statesBP (sp : SciPy) (fs att : ℚ) :
    StateDict → List PyVal → List StateDict × Option PyErr × StateDict
  | st, [] => ([], Option.none, st)
  | st, c :: rest =>
    match c with
    | .tup low high =>
      if low > high then
        ([], some (.valueError "cutoff_low must be smaller than cutoff_high"), st)
      else
        let stc : StateDict := { st with cut_off := some (.tup low high) }
        match sp.cheb2ordPair (low, high) (low - fs / 10, high + fs / 10)
            3 att fs with
        | .error e => ([], some e, stc)
        | .ok n =>
          let st1 : StateDict :=
            { stc with order := some n, attenuation := some att,
                       btype := some "bandpass" }
          let r := Filter.statesBP sp fs att st1 rest
          (st1 :: r.1, r.2.1, r.2.2)
    | _ => ([], some .typeError, st)

/-- Loop of `Filter.states` for `btype = "low"` (filter.py lines 261-270);
`cut_off` is written at line 266 before the fallible `cheb2ord` call at
line 267. -/
def Filter.statesLow (sp : SciPy) (fs att : ℚ) :
    StateDict → List PyVal → List StateDict × Option PyErr × StateDict
  | st, [] => ([], Option.none, st)
  | st, c :: rest =>
    match c with
    | .num freq =>
      if freq ≤ 0 then
        ([], some (.valueError
          "cutoff frequency for lowpass filter must be strictly positive"), st)
      else
        let stc : StateDict := { st with cut_off := some (.num freq) }
        match sp.cheb2ordScalar freq (freq + fs / 10) 3 att fs with
        | .error e => ([], some e, stc)
        | .ok n =>
          let st1 : StateDict :=
            { stc with order := some n, attenuation := some att,
                       btype := some "low" }
          let r := Filter.statesLow sp fs att st1 rest
          (st1 :: r.1, r.2.1, r.2.2)
    | _ => ([], some .typeError, st)

/-- Loop of `Filter.states` for `btype = "high"` (filter.py lines 271-280).
The source checks `freq <= 0 or freq >= state["nyquist"]` with Python
short-circuiting, so the `nyquist` key is only read when `freq > 0`;
`cut_off` is written at line 276 before the fallible `cheb2ord` call at
line 277. -/
def Filter.statesHigh (sp : SciPy) (fs att : ℚ) :
    StateDict → List PyVal → List StateDict × Option PyErr × StateDict
  | st, [] => ([], Option.none, st)
  | st, c :: rest =>
    match c with
    | .num freq =>
      if freq ≤ 0 then
        ([], some (.valueError
          "cutoff frequency for high pass filter must be strictly positive and smaller than nyquist frequency"), st)
      else
        match st.nyquist with
        | Option.none => ([], some (.keyError "nyquist"), st)
        | some nyq =>
          if freq ≥ nyq then
            ([], some (.valueError
              "cutoff frequency for high pass filter must be strictly positive and smaller than nyquist frequency"), st)
          else
            let stc : StateDict := { st with cut_off := some (.num freq) }
            match sp.cheb2ordScalar freq (freq - fs / 10) 3 att fs with
            | .error e => ([], some e, stc)
            | .ok n =>
              let st1 : StateDict :=
                { stc with order := some n, attenuation := some att,
                           btype := some "high" }
              let r := Filter.statesHigh sp fs att st1 rest
              (st1 :: r.1, r.2.1, r.2.2)
    | _ => ([], some .typeError, st)

/-- Embeds `Filter.states` (filter.py lines 247-280): allocate the single
state dict holding only the nyquist key, then run the loop selected by
`btype`; a `btype` outside low, high and bandpass yields nothing and raises
nothing. -/
def Filter.states (f : FilterD) (sp : SciPy) (sr : ℚ) : GenResult :=
  let st0 : StateDict := { nyquist := some (sr / 2) }
  if f.btype = "bandpass" then
    let r := Filter.statesBP sp sr f.attenuation st0 f.cutoff
    ⟨r.1, r.2.1, r.2.2⟩
  else if f.btype = "low" then
    let r := Filter.statesLow sp sr f.attenuation st0 f.cutoff
    ⟨r.1, r.2.1, r.2.2⟩
  else if f.btype = "high" then
    let r := Filter.statesHigh sp sr f.attenuation st0 f.cutoff
    ⟨r.1, r.2.1, r.2.2⟩
  else ⟨[], Option.none, st0⟩

/-- The shapes of the `cutoff` constructor argument of the random generators
that the source distinguishes with `isinstance` checks: a Python int, a
Python float, or a list of numbers. -/
inductive LPCutoffArg where
  | int (i : ℤ)
  | float (q : ℚ)
  | list (xs : List ℚ)
  deriving DecidableEq

/-- The deformer object built by `RandomLPFilter.__init__`. -/
structure RandomLPFilterD where
  n_samples : ℤ
  attenuation : ℚ
  sigma : ℚ
  rng : ℤ
  cutoff : ℚ
  deriving DecidableEq

/-- The deformer object built by `RandomHPFilter.__init__`. -/
structure RandomHPFilterD where
  n_samples : ℤ
  attenuation : ℚ
  sigma : ℚ
  rng : ℤ
  cutoff : ℚ
  deriving DecidableEq

/-- The deformer object built by `RandomBPFilter.__init__`. -/
structure RandomBPFilterD where
  n_samples : ℤ
  attenuation : ℚ
  sigma : ℚ
  rng : ℤ
  cutoff_low : ℚ
  cutoff_high : ℚ
  deriving DecidableEq

/-- Embeds `RandomLPFilter.__init__` (filter.py lines 331-356).  Note that
the cutoff domain check fires only when the cutoff argument is a Python
float (`isinstance(cutoff, float)`, line 339) or a list (line 342); a plain
int is never checked.  A list cutoff that passes the per-entry check still
raises `TypeError` at `float(cutoff)` on line 356. -/
def RandomLPFilter.init (n_samples : ℤ) (attenuation : ℚ) (cutoff : LPCutoffArg)
    (sigma : ℚ) (rng : ℤ) : Except PyErr RandomLPFilterD :=
  if sigma ≤ 0 then .error (.valueError "sigma must be strictly positive")
  else if n_samples ≤ 0 then .error (.valueError "n_samples must be None or positive")
  else if (match cutoff with
           | .float q => decide (q ≤ 0)
           | _ => false) then
    .error (.valueError "cutoff frequency must be None or positive")
  else if (match cutoff with
           | .list xs => xs.any fun x => decide (x ≤ 0)
           | _ => false) then
    .error (.valueError "cutoff frequency must be None or positive")
  else if attenuation ≤ 0 then .error (.valueError "attenuation must be None or positive")
  else
    match cutoff with
    | .int i => .ok ⟨n_samples, attenuation, sigma, rng, (i : ℚ)⟩
    | .float q => .ok ⟨n_samples, attenuation, sigma, rng, q⟩
    | .list _ => .error .typeError

/-- Embeds `RandomHPFilter.__init__` (filter.py lines 426-447): the cutoff
check `isinstance(cutoff, list) or cutoff <= 0` rejects every list and every
non-positive number, ints included. -/
def RandomHPFilter.init (n_samples : ℤ) (attenuation : ℚ) (cutoff : LPCutoffArg)
    (sigma : ℚ) (rng : ℤ) : Except PyErr RandomHPFilterD :=
  if sigma ≤ 0 then .error (.valueError "sigma must be strictly positive")
  else if n_samples ≤ 0 then .error (.valueError "n_samples must be None or positive")
  else if attenuation ≤ 0 then .error (.valueError "attenuation must be None or positive")
  else
    match cutoff with
    | .list _ =>
      .error (.valueError
        "high pass cutoff frequency must be strictly positive and lower than nyquist frequency")
    | .int i =>
      if (i : ℚ) ≤ 0 then
        .error (.valueError
          "high pass cutoff frequency must be strictly positive and lower than nyquist frequency")
      else .ok ⟨n_samples, attenuation, sigma, rng, (i : ℚ)⟩
    | .float q =>
      if q ≤ 0 then
        .error (.valueError
          "high pass cutoff frequency must be strictly positive and lower than nyquist frequency")
      else .ok ⟨n_samples, attenuation, sigma, rng, q⟩

/-- Embeds `RandomBPFilter.__init__` (filter.py lines 517-540) for numeric
parameters (the `is not None` guards of the source hold for every number). -/
def RandomBPFilter.init (n_samples : ℤ) (attenuation : ℚ)
    (cutoff_low cutoff_high : ℚ) (sigma : ℚ) (rng : ℤ) :
    Except PyErr RandomBPFilterD :=
  if sigma ≤ 0 then .error (.valueError "sigma must be strictly positive")
  else if n_samples ≤ 0 then .error (.valueError "n_samples must be None or positive")
  else if attenuation ≤ 0 then .error (.valueError "attenuation must be None or positive")
  else if cutoff_low ≥ cutoff_high then
    .error (.valueError
      "band pass higher cutoff frequency must be strictly greater than lower cutoff frequency")
  else if cutoff_low ≤ 0 ∨ cutoff_high ≤ 0 then
    .error (.valueError "band pass cutoff frequency must be strictly greater than zero")
  else .ok ⟨n_samples, attenuation, sigma, rng, cutoff_low, cutoff_high⟩

/-- The identifier `freq` is referenced at filter.py line 367 inside
`RandomLPFilter.states` but is bound nowhere in that scope, nor at module
level; evaluating it raises `NameError: name freq is not defined`.  The
failed lookup is modelled by this `Option.none`. -/
def RandomLPFilter.localFreq : Option ℚ := Option.none

/-- The identifier `freq` referenced at filter.py line 457 inside
`RandomHPFilter.states` is likewise unbound; its lookup fails. -/
def RandomHPFilter.localFreq : Option ℚ := Option.none

/-- The identifier `fs` referenced at filter.py line 457 inside
`RandomHPFilter.states` is unbound as well (that method never reads the
sample rate); its lookup fails.  Python evaluates `freq` first, so the
`NameError` actually raised names `freq`. -/
def RandomHPFilter.localFs : Option ℚ := Option.none

/-- The identifier `fs` is referenced at filter.py line 565 inside
`RandomBPFilter.states` but is bound nowhere in that scope, nor at module
level; evaluating it raises `NameError: name fs is not defined`.  The failed
lookup is modelled by this `Option.none`. -/
def RandomBPFilter.localFs : Option ℚ := Option.none

/-- Loop of `RandomLPFilter.states` (filter.py lines 361-373): for each of
`n_samples` iterations, set `btype`, then evaluate the unbound name `freq`
for the order estimate, which terminates the generator with a `NameError`
before anything is yielded.  `draws k` models the value returned by the k-th
call of `self._rng.normal` during this run; a normal distribution puts no
bound on the returned value, so the stream is quantified over freely.  The
index `k` is threaded so the dead code after the failed lookup stays
faithful to the source. -/
def RandomLPFilter.statesLoop (g : RandomLPFilterD) (sp : SciPy) (fs : ℚ)
    (draws : ℕ → ℚ) : StateDict → ℕ → ℕ → List StateDict × Option PyErr × StateDict
  | st, _, 0 => ([], Option.none, st)
  | st, k, n + 1 =>
    let st1 : StateDict := { st with btype := some "low" }
    match RandomLPFilter.localFreq with
    | Option.none => ([], some (.nameError "freq"), st1)
    | some freq =>
      match sp.cheb2ordScalar freq (freq + fs / 10) 3 g.attenuation fs with
      | .error e => ([], some e, st1)
      | .ok ord =>
        let st2 : StateDict :=
          { st1 with
            order := some ord,
            attenuation := some g.attenuation,
            cut_off := some (.num (draws k)) }
        let r := RandomLPFilter.statesLoop g sp fs draws st2 (k + 1) n
        (st2 :: r.1, r.2.1, r.2.2)

/-- Embeds `RandomLPFilter.states`: the base dict from
`AbstractFilter.states` (nyquist only), then the sampling loop. -/
def RandomLPFilter.states (g : RandomLPFilterD) (sp : SciPy) (sr : ℚ)
    (draws : ℕ → ℚ) : GenResult :=
  let st0 : StateDict := { nyquist := some (sr / 2) }
  let r := RandomLPFilter.statesLoop g sp sr draws st0 0 g.n_samples.toNat
  ⟨r.1, r.2.1, r.2.2⟩

/-- Loop of `RandomHPFilter.states` (filter.py lines 453-463); both `freq`
and `fs` are unbound there, and `freq` is evaluated first. -/
def RandomHPFilter.statesLoop (g : RandomHPFilterD) (sp : SciPy)
    (draws : ℕ → ℚ) : StateDict → ℕ → ℕ → List StateDict × Option PyErr × StateDict
  | st, _, 0 => ([], Option.none, st)
  | st, k, n + 1 =>
    let st1 : StateDict := { st with btype := some "high" }
    match RandomHPFilter.localFreq with
    | Option.none => ([], some (.nameError "freq"), st1)
    | some freq =>
      match RandomHPFilter.localFs with
      | Option.none => ([], some (.nameError "fs"), st1)
      | some fs =>
        match sp.cheb2ordScalar freq (freq - fs / 10) 3 g.attenuation fs with
        | .error e => ([], some e, st1)
        | .ok ord =>
          let st2 : StateDict :=
            { st1 with
              order := some ord,
              attenuation := some g.attenuation,
              cut_off := some (.num (draws k)) }
          let r := RandomHPFilter.statesLoop g sp draws st2 (k + 1) n
          (st2 :: r.1, r.2.1, r.2.2)

/-- Embeds `RandomHPFilter.states`. -/
def RandomHPFilter.states (g : RandomHPFilterD) (sp : SciPy) (sr : ℚ)
    (draws : ℕ → ℚ) : GenResult :=
  let st0 : StateDict := { nyquist := some (sr / 2) }
  let r := RandomHPFilter.statesLoop g sp draws st0 0 g.n_samples.toNat
  ⟨r.1, r.2.1, r.2.2⟩

/-- The rejection `while` loop of `RandomBPFilter.states` (filter.py lines
556-562): while `high <= low`, redraw `high` from Normal(cutoff_high, sigma)
and then `low` from Normal(cutoff_low, sigma); `draws k` models the value
returned by the k-th `self._rng.normal` call.  Returns the accepted
`(high, low)` pair together with the next unused draw index, or `Option.none`
when the loop has not terminated within `fuel` further iterations (a model
artifact for a run still inside the while loop). -/
def RandomBPFilter.whileRedraw (draws : ℕ → ℚ) :
    ℕ → ℚ → ℚ → ℕ → Option (ℚ × ℚ × ℕ)
  | fuel, high, low, k =>
    if high ≤ low then
      match fuel with
      | 0 => Option.none
      | f + 1 =>
        RandomBPFilter.whileRedraw draws f (draws k) (draws (k + 1)) (k + 2)
    else some (high, low, k)

/-- Loop of `RandomBPFilter.states` (filter.py lines 545-570): draw `high`
then `low`, rejection-sample until `high > low`, store `btype` and `cut_off`
in the shared dict, then evaluate the unbound name `fs` for the order
estimate, which terminates the generator with a `NameError` before anything
is yielded. -/
def RandomBPFilter.statesLoop (g : RandomBPFilterD) (sp : SciPy)
    (draws : ℕ → ℚ) (fuel : ℕ) :
    StateDict → ℕ → ℕ → List StateDict × Option PyErr × StateDict
  | st, _, 0 => ([], Option.none, st)
  | st, k, n + 1 =>
    let high0 := draws k
    let low0 := draws (k + 1)
    match RandomBPFilter.whileRedraw draws fuel high0 low0 (k + 2) with
    | Option.none => ([], some .fuelOut, st)
    | some (high, low, k1) =>
      let st1 : StateDict :=
        { st with btype := some "bandpass", cut_off := some (.tup low high) }
      match RandomBPFilter.localFs with
      | Option.none => ([], some (.nameError "fs"), st1)
      | some fs =>
        match sp.cheb2ordPair (low, high) (low - fs / 10, high + fs / 10)
            3 g.attenuation fs with
        | .error e => ([], some e, st1)
        | .ok ord =>
          let st2 : StateDict :=
            { st1 with
              order := some ord,
              attenuation := some g.attenuation }
          let r := RandomBPFilter.statesLoop g sp draws fuel st2 k1 n
          (st2 :: r.1, r.2.1, r.2.2)

/-- Embeds `RandomBPFilter.states`. -/
def RandomBPFilter.states (g : RandomBPFilterD) (sp : SciPy) (sr : ℚ)
    (draws : ℕ → ℚ) (fuel : ℕ) : GenResult :=
  let st0 : StateDict := { nyquist := some (sr / 2) }
  let r := RandomBPFilter.statesLoop g sp draws fuel st0 0 g.n_samples.toNat
  ⟨r.1, r.2.1, r.2.2⟩

/-- Validity of one declared cutoff entry for the deterministic `Filter`
generator, read off the checks of `Filter.states`: a bandpass pair must have
`low <= high` (line 253 raises only on `low > high`), a low-pass scalar must
be positive, a high-pass scalar must be positive and below nyquist. -/
def cutoffEntryOK (btype : String) (nyq : ℚ) (c : PyVal) : Bool :=
  match btype, c with
  | "bandpass", .tup lo hi => decide (lo ≤ hi)
  | "low", .num x => decide (0 < x)
  | "high", .num x => decide (0 < x) && decide (x < nyq)
  | _, _ => false

/-- A concrete stand-in for `scipy.signal.cheb2ord` used in witnesses: it
reports order 4 for every request, modelling runs on which every
order-estimation call is feasible. -/
def spConst : SciPy := ⟨fun _ _ _ _ _ => .ok 4, fun _ _ _ _ _ => .ok 4⟩

/-- A concrete instance of `SciPy` whose scalar entry point always raises the
`ValueError` that `scipy.signal.cheb2ord` produces on an infeasible
transition band (the NaN-to-int conversion in its order formula).  It is used
for runs that issue exactly one scalar call whose real arguments scipy
rejects — such as `Filter(btype="low", cutoff=20000).states` at sample rate
44100, whose single call `cheb2ord(20000, 20000 + 4410, 3, 60, fs=44100)`
has its stopband edge 24410 above the nyquist frequency 22050, where real
`cheb2ord` raises this error — so on every call such a run actually makes,
this record agrees with the real library. -/
def spErr : SciPy :=
  ⟨fun _ _ _ _ _ => .error (.valueError "cannot convert float NaN to integer"),
   fun _ _ _ _ _ => .ok 4⟩

/-- The order-estimation call that `Filter.states` issues for one declared
cutoff entry succeeds.  The argument shapes mirror filter.py lines 257, 267
and 277: the stopband edge is offset by `fs/10` from the passband edge, with
3 dB passband ripple and the declared attenuation. -/
def ordCallOK (btype : String) (sp : SciPy) (fs att : ℚ) (c : PyVal) : Prop :=
  match btype, c with
  | "bandpass", .tup lo hi =>
    ∃ n, sp.cheb2ordPair (lo, hi) (lo - fs / 10, hi + fs / 10) 3 att fs = .ok n
  | "low", .num x =>
    ∃ n, sp.cheb2ordScalar x (x + fs / 10) 3 att fs = .ok n
  | "high", .num x =>
    ∃ n, sp.cheb2ordScalar x (x - fs / 10) 3 att fs = .ok n
  | _, _ => True

/-- A concrete stand-in for the `librosa` conversions used in witnesses:
every midi number and every note name maps to 1000 Hz. -/
def libConst : Librosa := ⟨fun _ => 1000, fun _ => 1000⟩

/-- A concrete low-pass descriptor at 4000 Hz, used in witnesses. -/
def sLow4000 : StateDict :=
  { nyquist := some 22050, btype := some "low", cut_off := some (.num 4000),
    order := some 4, attenuation := some 60 }

/-- A concrete deterministic low-pass `Filter` with two declared cutoffs,
used in witnesses and counterexamples. -/
def fLow2 : FilterD := ⟨"low", 60, [.num 100, .num 200]⟩

/-- A concrete deterministic low-pass `Filter` whose single declared cutoff
20000 satisfies the domain constraint (positive, below the nyquist frequency
22050 of a 44100 Hz session) but lies in the region where the fs/10
transition heuristic makes the order-estimation call infeasible: the
stopband edge 20000 + 4410 exceeds nyquist. -/
def fLow20000 : FilterD := ⟨"low", 60, [.num 20000]⟩

/-- A concrete draw stream for `RandomBPFilter` runs: the first draw (the
`high` sample) is 2000, every later draw is 500. -/
def draws0 : ℕ → ℚ := fun k => if k = 0 then 2000 else 500

/-- A concrete `SciPy` instance for a run with the declared low-pass cutoffs
100 and 20000 at sample rate 44100: the call for passband edge 100 is
feasible (order 4 reported), while the call for passband edge 20000 raises —
as the real `cheb2ord` does there, its stopband edge 24410 lying above the
nyquist frequency 22050 — so on both calls such a run issues, this record
agrees with the real library. -/
def spLowSplit : SciPy :=
  ⟨fun wp _ _ _ _ =>
    if wp = 100 then .ok 4
    else .error (.valueError "cannot convert float NaN to integer"),
   fun _ _ _ _ _ => .ok 4⟩

/-- Characterization of `checkfreqinband` on a successfully converted
frequency with numeric passband bounds: the result is `(freq, true)` exactly
when the converted frequency lies strictly between the bounds, and
`(None, false)` otherwise. -/
theorem checkfreqinband_ok (lib : Librosa) (freq : PyVal) (s : StateDict)
    (dt bt : String) (hzv lo hi : ℚ)
    (hconv : convertToHz lib freq dt = .ok (some (.num hzv)))
    (hbt : s.btype = some bt)
    (hbd : passbandBounds s bt = .ok (.num lo, .num hi)) :
    checkfreqinband lib freq s dt
      = .ok (if lo < hzv ∧ hzv < hi then (freq, true) else (.none, false)) := by
  simp only [checkfreqinband, hconv, hbt, hbd, pyLe, pyGe]
  split_ifs with hin
  · simp only [decide_eq_false (not_le.mpr hin.1), decide_eq_false (not_le.mpr hin.2)]
  · by_cases h1 : hzv ≤ lo
    · simp only [decide_eq_true h1]
    · simp only [decide_eq_false h1,
        decide_eq_true (not_lt.mp fun h2 => hin ⟨not_le.mp h1, h2⟩)]

/-- C1: for every filter-state descriptor and every frequency given in Hz,
`checkfreqinband` returns `(freq, true)` exactly when the frequency lies
strictly between the bounds derived from the state: `(low, high) = cut_off`
for bandpass, `(0, cut_off)` for low-pass, `(cut_off, nyquist)` for
high-pass; a frequency equal to either bound, or outside them, gives
`(None, false)`. -/
theorem checkfreqinband_hz_strict_passband (lib : Librosa) (f lo hi c nyq : ℚ)
    (nq : Option ℚ) (ord : Option ℕ) (att : Option ℚ) :
    (checkfreqinband lib (.num f)
        ⟨nq, some "bandpass", some (.tup lo hi), ord, att⟩ "hz"
      = .ok (if lo < f ∧ f < hi then (.num f, true) else (.none, false)))
    ∧ (checkfreqinband lib (.num f)
        ⟨nq, some "low", some (.num c), ord, att⟩ "hz"
      = .ok (if 0 < f ∧ f < c then (.num f, true) else (.none, false)))
    ∧ (checkfreqinband lib (.num f)
        ⟨some nyq, some "high", some (.num c), ord, att⟩ "hz"
      = .ok (if c < f ∧ f < nyq then (.num f, true) else (.none, false))) :=
  ⟨checkfreqinband_ok lib (.num f) _ "hz" "bandpass" f lo hi rfl rfl rfl,
   checkfreqinband_ok lib (.num f) _ "hz" "low" f 0 c rfl rfl rfl,
   checkfreqinband_ok lib (.num f) _ "hz" "high" f c nyq rfl rfl rfl⟩

/-- Helper: `Nat.toDigitsCore` only prepends characters to its accumulator. -/
theorem toDigitsCore_prepends (b : ℕ) :
    ∀ (fuel n : ℕ) (ds : List Char), ∃ l, Nat.toDigitsCore b fuel n ds = l ++ ds
  | 0, _, ds => ⟨[], rfl⟩
  | fuel + 1, n, ds => by
    by_cases h : n / b = 0
    · exact ⟨[Nat.digitChar (n % b)], by simp [Nat.toDigitsCore, h]⟩
    · obtain ⟨l, hl⟩ :=
        toDigitsCore_prepends b fuel (n / b) (Nat.digitChar (n % b) :: ds)
      exact ⟨l ++ [Nat.digitChar (n % b)], by simp [Nat.toDigitsCore, h, hl]⟩

/-- The decimal digit list of a natural number ends with the digit character
of `n % 10`. -/
theorem toDigits_ten_last (n : ℕ) :
    ∃ l, Nat.toDigits 10 n = l ++ [Nat.digitChar (n % 10)] := by
  unfold Nat.toDigits
  by_cases h : n / 10 = 0
  · exact ⟨[], by simp [Nat.toDigitsCore, h]⟩
  · obtain ⟨l, hl⟩ := toDigitsCore_prepends 10 n (n / 10) [Nat.digitChar (n % 10)]
    exact ⟨l, by simp [Nat.toDigitsCore, h, hl]⟩

/-- Python `int` of a decimal digit character recovers its value. -/
theorem pyIntOfChar_digitChar (r : ℕ) (h : r < 10) :
    pyIntOfChar (Nat.digitChar r) = some (r : ℤ) := by
  interval_cases r <;> decide

/-- The string form of an integer ends in a decimal digit character, and
`pyIntOfChar` extracts an integer from that character. -/
theorem intString_last_digit (i : ℤ) :
    ∃ (l : List Char) (d : Char) (k : ℤ),
      (toString i).data = l ++ [d] ∧ pyIntOfChar d = some k := by
  cases i with
  | ofNat m =>
    obtain ⟨l, hl⟩ := toDigits_ten_last m
    have hdata : (toString (Int.ofNat m)).data = Nat.toDigits 10 m := rfl
    exact ⟨l, Nat.digitChar (m % 10), ((m % 10 : ℕ) : ℤ), by rw [hdata, hl],
      pyIntOfChar_digitChar (m % 10) (Nat.mod_lt m (by norm_num))⟩
  | negSucc m =>
    obtain ⟨l, hl⟩ := toDigits_ten_last (m + 1)
    have hdata : (toString (Int.negSucc m)).data
        = '-' :: Nat.toDigits 10 (m + 1) := rfl
    exact ⟨'-' :: l, Nat.digitChar ((m + 1) % 10), (((m + 1) % 10 : ℕ) : ℤ),
      by rw [hdata, hl]; simp, pyIntOfChar_digitChar ((m + 1) % 10)
        (Nat.mod_lt (m + 1) (by norm_num))⟩

/-- The pitch-class token `tonic + str(pitch)` splits into a prefix and a
final decimal digit character carrying an integer value. -/
theorem token_splits (tonic : String) (pitch : ℤ) :
    ∃ (l : List Char) (d : Char) (k : ℤ),
      (tonic ++ toString pitch).data = l ++ [d] ∧ pyIntOfChar d = some k := by
  obtain ⟨l, d, k, hl, hk⟩ := intString_last_digit pitch
  exact ⟨tonic.data ++ l, d, k,
    by rw [String.data_append, hl, List.append_assoc], hk⟩

/-- A concrete two-observation pitch contour (2000 Hz and 6000 Hz) used in
witnesses. -/
def annC : List (Obs ContourValue) :=
  [⟨0, 1, .num 1, ⟨0, .num 2000, true⟩⟩, ⟨1, 1, .num 1, ⟨0, .num 6000, true⟩⟩]

/-- A concrete two-observation scalar annotation (2000 and 6000) used in
witnesses. -/
def annHz : List (Obs PyVal) :=
  [⟨0, 1, .num 1, .num 2000⟩, ⟨1, 1, .num 1, .num 6000⟩]

/-- A concrete two-observation pitch-class annotation used in witnesses. -/
def annPC : List (Obs ClassValue) :=
  [⟨0, 1, .num 1, ⟨"C#", 4⟩⟩, ⟨1, 1, .num 1, ⟨"D", 5⟩⟩]

/-- C5 counterexample: on a contour observation carrying a null frequency —
a shape the pitch-contour value model allows (an unvoiced slot with
`frequency=null`, `voiced=false`) and one that `filter_contour` itself
produces for out-of-band observations — the adapter does not re-emit an
equal-length sequence: the classifier evaluates `None <= low` and raises
`TypeError` (filter.py line 59), aborting the pass. -/
theorem filter_contour_null_frequency_counterexample :
    filter_contour libConst sLow4000
      [⟨0, 1, .num 1, ⟨0, PyVal.none, false⟩⟩] = .error .typeError := by
  decide

/-- C5 amended: for every descriptor with numeric passband bounds and every
input observation sequence whose observations all carry numeric frequencies,
the contour adapter produces an output of exactly the same length in which
each observation keeps `time`, `duration`, `confidence` and `value.index`
unchanged and only `value.frequency` and `value.voiced` are replaced by the
frequency (possibly `None`) and boolean returned by the classifier; an
observation whose frequency is null instead raises `TypeError` when compared
against the band edge, aborting the adapter. -/
theorem filter_contour_preserves_shape (lib : Librosa) (state : StateDict)
    (bt : String) (lo hi : ℚ)
    (hbt : state.btype = some bt)
    (hbd : passbandBounds state bt = .ok (.num lo, .num hi)) :
    ∀ ann : List (Obs ContourValue),
      (∀ o ∈ ann, ∃ x : ℚ, o.value.frequency = PyVal.num x) →
      ∃ out, filter_contour lib state ann = .ok out
        ∧ out.length = ann.length
        ∧ List.Forall₂ (fun a b =>
            b.time = a.time ∧ b.duration = a.duration
            ∧ b.confidence = a.confidence ∧ b.value.index = a.value.index
            ∧ checkfreqinband lib a.value.frequency state "hz"
                = .ok (b.value.frequency, b.value.voiced)) ann out := by
  intro ann hall
  induction ann with
  | nil => exact ⟨[], rfl, rfl, List.Forall₂.nil⟩
  | cons o rest ih =>
    obtain ⟨x, hx⟩ := hall o (List.mem_cons_self o rest)
    obtain ⟨out1, hout1, hlen1, hF1⟩ :=
      ih fun o1 ho1 => hall o1 (List.mem_cons_of_mem o ho1)
    have hc0 : checkfreqinband lib o.value.frequency state "hz"
        = .ok (if lo < x ∧ x < hi then (.num x, true) else (.none, false)) := by
      rw [hx]
      exact checkfreqinband_ok lib (.num x) state "hz" bt x lo hi rfl hbt hbd
    rcases hpp : (if lo < x ∧ x < hi then ((PyVal.num x), true)
        else (PyVal.none, false)) with ⟨nf, vc⟩
    rw [hpp] at hc0
    refine ⟨⟨o.time, o.duration, o.confidence, ⟨o.value.index, nf, vc⟩⟩ :: out1,
      ?_, ?_, ?_⟩
    · simp only [filter_contour, hc0, hout1]
    · simp [hlen1]
    · exact List.Forall₂.cons ⟨rfl, rfl, rfl, rfl, hc0⟩ hF1

/-- Witness for C5 at a concrete low-pass descriptor and contour. -/
theorem filter_contour_preserves_shape_witness :
    ∃ out, filter_contour libConst sLow4000 annC = .ok out
      ∧ out.length = annC.length := by
  obtain ⟨out, h1, h2, _⟩ :=
    filter_contour_preserves_shape libConst sLow4000 "low" 0 4000 rfl rfl annC
      (by
        intro o ho
        simp only [annC, List.mem_cons, List.not_mem_nil, or_false] at ho
        rcases ho with rfl | rfl
        · exact ⟨2000, rfl⟩
        · exact ⟨6000, rfl⟩)
  exact ⟨out, h1, h2⟩

/-- Drop semantics of `filter_hz`: every emitted observation stems from an
input observation whose classification succeeded as in-band, and the output
is never longer than the input. -/
theorem filter_hz_spec (lib : Librosa) (state : StateDict) (bt : String)
    (lo hi : ℚ) (hbt : state.btype = some bt)
    (hbd : passbandBounds state bt = .ok (.num lo, .num hi)) :
    ∀ ann : List (Obs PyVal),
      (∀ o ∈ ann, ∃ x : ℚ, o.value = PyVal.num x) →
      ∃ out, filter_hz lib state ann = .ok out
        ∧ out.length ≤ ann.length
        ∧ ∀ o ∈ out, ∃ a ∈ ann, o.time = a.time ∧ o.duration = a.duration
            ∧ o.confidence = a.confidence
            ∧ checkfreqinband lib a.value state "hz" = .ok (o.value, true)
            ∧ ∃ x : ℚ, o.value = PyVal.num x ∧ lo < x ∧ x < hi := by
  intro ann hall
  induction ann with
  | nil => exact ⟨[], rfl, Nat.le_refl 0, by simp⟩
  | cons o rest ih =>
    obtain ⟨x, hx⟩ := hall o (List.mem_cons_self o rest)
    obtain ⟨out1, hout1, hlen1, hmem1⟩ :=
      ih fun o1 ho1 => hall o1 (List.mem_cons_of_mem o ho1)
    have hc0 := checkfreqinband_ok lib (.num x) state "hz" bt x lo hi rfl hbt hbd
    by_cases hin : lo < x ∧ x < hi
    · have hc : checkfreqinband lib o.value state "hz" = .ok (.num x, true) := by
        rw [hx, hc0, if_pos hin]
      refine ⟨{ o with value := .num x } :: out1, ?_, ?_, ?_⟩
      · simp [filter_hz, hc, hout1]
      · simpa using Nat.succ_le_succ hlen1
      · intro o2 ho2
        rcases List.mem_cons.mp ho2 with rfl | h2
        · exact ⟨o, List.mem_cons_self o rest, rfl, rfl, rfl,
            by rw [hx] at hc ⊢; exact hc, x, rfl, hin⟩
        · obtain ⟨a, ha, props⟩ := hmem1 o2 h2
          exact ⟨a, List.mem_cons_of_mem o ha, props⟩
    · have hc : checkfreqinband lib o.value state "hz" = .ok (.none, false) := by
        rw [hx, hc0, if_neg hin]
      refine ⟨out1, ?_, ?_, ?_⟩
      · simp [filter_hz, hc, hout1]
      · exact Nat.le_trans hlen1 (Nat.le_succ _)
      · intro o2 ho2
        obtain ⟨a, ha, props⟩ := hmem1 o2 ho2
        exact ⟨a, List.mem_cons_of_mem o ha, props⟩

/-- Drop semantics of `filter_midi`, with the classified frequency being the
midi-to-Hz conversion of the emitted midi number. -/
theorem filter_midi_spec (lib : Librosa) (state : StateDict) (bt : String)
    (lo hi : ℚ) (hbt : state.btype = some bt)
    (hbd : passbandBounds state bt = .ok (.num lo, .num hi)) :
    ∀ ann : List (Obs PyVal),
      (∀ o ∈ ann, ∃ m : ℚ, o.value = PyVal.num m) →
      ∃ out, filter_midi lib state ann = .ok out
        ∧ out.length ≤ ann.length
        ∧ ∀ o ∈ out, ∃ a ∈ ann, o.time = a.time ∧ o.duration = a.duration
            ∧ o.confidence = a.confidence
            ∧ checkfreqinband lib a.value state "midi" = .ok (o.value, true)
            ∧ ∃ m : ℚ, o.value = PyVal.num m
                ∧ lo < lib.midi_to_hz m ∧ lib.midi_to_hz m < hi := by
  intro ann hall
  induction ann with
  | nil => exact ⟨[], rfl, Nat.le_refl 0, by simp⟩
  | cons o rest ih =>
    obtain ⟨m, hm⟩ := hall o (List.mem_cons_self o rest)
    obtain ⟨out1, hout1, hlen1, hmem1⟩ :=
      ih fun o1 ho1 => hall o1 (List.mem_cons_of_mem o ho1)
    have hc0 := checkfreqinband_ok lib (.num m) state "midi" bt
      (lib.midi_to_hz m) lo hi rfl hbt hbd
    by_cases hin : lo < lib.midi_to_hz m ∧ lib.midi_to_hz m < hi
    · have hc : checkfreqinband lib o.value state "midi" = .ok (.num m, true) := by
        rw [hm, hc0, if_pos hin]
      refine ⟨{ o with value := .num m } :: out1, ?_, ?_, ?_⟩
      · simp [filter_midi, hc, hout1]
      · simpa using Nat.succ_le_succ hlen1
      · intro o2 ho2
        rcases List.mem_cons.mp ho2 with rfl | h2
        · exact ⟨o, List.mem_cons_self o rest, rfl, rfl, rfl,
            by rw [hm] at hc ⊢; exact hc, m, rfl, hin⟩
        · obtain ⟨a, ha, props⟩ := hmem1 o2 h2
          exact ⟨a, List.mem_cons_of_mem o ha, props⟩
    · have hc : checkfreqinband lib o.value state "midi" = .ok (.none, false) := by
        rw [hm, hc0, if_neg hin]
      refine ⟨out1, ?_, ?_, ?_⟩
      · simp [filter_midi, hc, hout1]
      · exact Nat.le_trans hlen1 (Nat.le_succ _)
      · intro o2 ho2
        obtain ⟨a, ha, props⟩ := hmem1 o2 ho2
        exact ⟨a, List.mem_cons_of_mem o ha, props⟩

/-- Drop semantics of `filter_class`: the adapter never fails on integer
pitches, emits only in-band observations, and never lengthens the
sequence. -/
theorem filter_class_spec (lib : Librosa) (state : StateDict) (bt : String)
    (lo hi : ℚ) (hbt : state.btype = some bt)
    (hbd : passbandBounds state bt = .ok (.num lo, .num hi)) :
    ∀ ann : List (Obs ClassValue),
      ∃ out, filter_class lib state ann = .ok out
        ∧ out.length ≤ ann.length
        ∧ ∀ o ∈ out, ∃ a ∈ ann, o.time = a.time ∧ o.duration = a.duration
            ∧ o.confidence = a.confidence
            ∧ checkfreqinband lib
                (.str (a.value.tonic ++ toString a.value.pitch)) state "pitchclass"
                = .ok (.str (a.value.tonic ++ toString a.value.pitch), true)
            ∧ lo < lib.note_to_hz (a.value.tonic ++ toString a.value.pitch)
            ∧ lib.note_to_hz (a.value.tonic ++ toString a.value.pitch) < hi := by
  intro ann
  induction ann with
  | nil => exact ⟨[], rfl, Nat.le_refl 0, by simp⟩
  | cons o rest ih =>
    obtain ⟨out1, hout1, hlen1, hmem1⟩ := ih
    have hc0 := checkfreqinband_ok lib
      (.str (o.value.tonic ++ toString o.value.pitch)) state "pitchclass" bt
      (lib.note_to_hz (o.value.tonic ++ toString o.value.pitch)) lo hi rfl hbt hbd
    by_cases hin : lo < lib.note_to_hz (o.value.tonic ++ toString o.value.pitch)
        ∧ lib.note_to_hz (o.value.tonic ++ toString o.value.pitch) < hi
    · have hc : checkfreqinband lib
          (.str (o.value.tonic ++ toString o.value.pitch)) state "pitchclass"
          = .ok (.str (o.value.tonic ++ toString o.value.pitch), true) := by
        rw [hc0, if_pos hin]
      obtain ⟨l, d, k, hl, hk⟩ := token_splits o.value.tonic o.value.pitch
      have hlast : pyLast (o.value.tonic ++ toString o.value.pitch) = some d := by
        unfold pyLast
        rw [hl]
        exact List.getLast?_concat l
      refine ⟨{ o with value := ⟨pySliceInit
          (o.value.tonic ++ toString o.value.pitch), k⟩ } :: out1, ?_, ?_, ?_⟩
      · simp [filter_class, hc, hlast, hk, hout1]
      · simpa using Nat.succ_le_succ hlen1
      · intro o2 ho2
        rcases List.mem_cons.mp ho2 with rfl | h2
        · exact ⟨o, List.mem_cons_self o rest, rfl, rfl, rfl, hc, hin⟩
        · obtain ⟨a, ha, props⟩ := hmem1 o2 h2
          exact ⟨a, List.mem_cons_of_mem o ha, props⟩
    · have hc : checkfreqinband lib
          (.str (o.value.tonic ++ toString o.value.pitch)) state "pitchclass"
          = .ok (.none, false) := by
        rw [hc0, if_neg hin]
      refine ⟨out1, ?_, ?_, ?_⟩
      · simp [filter_class, hc, hout1]
      · exact Nat.le_trans hlen1 (Nat.le_succ _)
      · intro o2 ho2
        obtain ⟨a, ha, props⟩ := hmem1 o2 ho2
        exact ⟨a, List.mem_cons_of_mem o ha, props⟩

/-- C6: the hz, midi and pitch-class adapters re-emit an observation only
when the classifier reports it in-band (preserving time, duration and
confidence, with the value set to the classifier result), so they never emit
an observation whose classified frequency lies on or outside the passband
bounds, and the output length never exceeds the input length. -/
theorem filter_drop_adapters_inband_only (lib : Librosa) (state : StateDict)
    (bt : String) (lo hi : ℚ) (hbt : state.btype = some bt)
    (hbd : passbandBounds state bt = .ok (.num lo, .num hi)) :
    (∀ ann : List (Obs PyVal),
      (∀ o ∈ ann, ∃ x : ℚ, o.value = PyVal.num x) →
      ∃ out, filter_hz lib state ann = .ok out
        ∧ out.length ≤ ann.length
        ∧ ∀ o ∈ out, ∃ a ∈ ann, o.time = a.time ∧ o.duration = a.duration
            ∧ o.confidence = a.confidence
            ∧ checkfreqinband lib a.value state "hz" = .ok (o.value, true)
            ∧ ∃ x : ℚ, o.value = PyVal.num x ∧ lo < x ∧ x < hi)
    ∧ (∀ ann : List (Obs PyVal),
      (∀ o ∈ ann, ∃ m : ℚ, o.value = PyVal.num m) →
      ∃ out, filter_midi lib state ann = .ok out
        ∧ out.length ≤ ann.length
        ∧ ∀ o ∈ out, ∃ a ∈ ann, o.time = a.time ∧ o.duration = a.duration
            ∧ o.confidence = a.confidence
            ∧ checkfreqinband lib a.value state "midi" = .ok (o.value, true)
            ∧ ∃ m : ℚ, o.value = PyVal.num m
                ∧ lo < lib.midi_to_hz m ∧ lib.midi_to_hz m < hi)
    ∧ (∀ ann : List (Obs ClassValue),
      ∃ out, filter_class lib state ann = .ok out
        ∧ out.length ≤ ann.length
        ∧ ∀ o ∈ out, ∃ a ∈ ann, o.time = a.time ∧ o.duration = a.duration
            ∧ o.confidence = a.confidence
            ∧ checkfreqinband lib
                (.str (a.value.tonic ++ toString a.value.pitch)) state "pitchclass"
                = .ok (.str (a.value.tonic ++ toString a.value.pitch), true)
            ∧ lo < lib.note_to_hz (a.value.tonic ++ toString a.value.pitch)
            ∧ lib.note_to_hz (a.value.tonic ++ toString a.value.pitch) < hi) :=
  ⟨filter_hz_spec lib state bt lo hi hbt hbd,
   filter_midi_spec lib state bt lo hi hbt hbd,
   filter_class_spec lib state bt lo hi hbt hbd⟩

/-- Witness for C6 at a concrete low-pass descriptor: the 6000 Hz observation
is dropped, the 2000 Hz one kept. -/
theorem filter_drop_adapters_inband_only_witness :
    ∃ out, filter_hz libConst sLow4000 annHz = .ok out
      ∧ out.length ≤ annHz.length := by
  obtain ⟨out, h1, h2, _⟩ :=
    (filter_drop_adapters_inband_only libConst sLow4000 "low" 0 4000 rfl rfl).1
      annHz
      (by
        intro o ho
        simp only [annHz, List.mem_cons, List.not_mem_nil, or_false] at ho
        rcases ho with rfl | rfl
        · exact ⟨2000, rfl⟩
        · exact ⟨6000, rfl⟩)
  exact ⟨out, h1, h2⟩

/-- C7: the pitch-class adapter classifies the concatenation of `tonic` and
the string form of `pitch` as a pitch class, and, when in-band, re-emits an
observation whose `tonic` is the returned token minus its last character and
whose `pitch` is the integer value of that last character. -/
theorem filter_class_token_splice (lib : Librosa) (state : StateDict)
    (o : Obs ClassValue) (rest out1 : List (Obs ClassValue)) (d : Char) (k : ℤ)
    (hcls : checkfreqinband lib
        (.str (o.value.tonic ++ toString o.value.pitch)) state "pitchclass"
        = .ok (.str (o.value.tonic ++ toString o.value.pitch), true))
    (hlast : pyLast (o.value.tonic ++ toString o.value.pitch) = some d)
    (hint : pyIntOfChar d = some k)
    (hrest : filter_class lib state rest = .ok out1) :
    filter_class lib state (o :: rest)
      = .ok ({ o with value :=
          { tonic := pySliceInit (o.value.tonic ++ toString o.value.pitch),
            pitch := k } } :: out1) := by
  simp [filter_class, hcls, hlast, hint, hrest]

/-- Witness for C7 at a concrete observation: the token of tonic `C#` and
octave 4 is classified as `C#4` and spliced back into tonic `C#`, pitch 4. -/
theorem filter_class_token_splice_witness :
    filter_class libConst sLow4000 [⟨0, 1, .num 1, ⟨"C#", 4⟩⟩]
      = .ok [⟨0, 1, .num 1, ⟨"C#", 4⟩⟩] := by
  have h := filter_class_token_splice libConst sLow4000
    ⟨0, 1, .num 1, ⟨"C#", 4⟩⟩ [] [] '4' 4 (by decide) (by decide) (by decide) rfl
  exact h.trans (by decide)

/-- The default value of `getLastD` is irrelevant on a nonempty list. -/
theorem getLastD_congr {α : Type} (l : List α) (d1 d2 : α) (h : l ≠ []) :
    l.getLastD d1 = l.getLastD d2 := by
  cases l with
  | nil => exact absurd rfl h
  | cons a l => rw [List.getLastD_cons, List.getLastD_cons]

/-- Specification of the bandpass loop of `Filter.states` on valid entries
whose order-estimation calls succeed: no error, one yield per entry carrying
exactly that entry as `cut_off`, and the final dict equals the last yielded
snapshot. -/
theorem statesBP_spec (sp : SciPy) (fs att nyq : ℚ) :
    ∀ (cs : List PyVal) (st : StateDict),
      (∀ c ∈ cs, cutoffEntryOK "bandpass" nyq c = true) →
      (∀ c ∈ cs, ordCallOK "bandpass" sp fs att c) →
      (Filter.statesBP sp fs att st cs).2.1 = Option.none
      ∧ (Filter.statesBP sp fs att st cs).1.map (fun s => s.cut_off) = cs.map some
      ∧ (Filter.statesBP sp fs att st cs).2.2
          = (Filter.statesBP sp fs att st cs).1.getLastD st := by
  intro cs
  induction cs with
  | nil => intro st _ _; exact ⟨rfl, rfl, rfl⟩
  | cons c cs ih =>
    intro st h hord
    have hc := h c (List.mem_cons_self c cs)
    obtain ⟨lo, hi, rfl⟩ : ∃ lo hi, c = PyVal.tup lo hi := by
      cases c with
      | tup lo hi => exact ⟨lo, hi, rfl⟩
      | num x => simp [cutoffEntryOK] at hc
      | str s => simp [cutoffEntryOK] at hc
      | none => simp [cutoffEntryOK] at hc
    have hle : lo ≤ hi := by simpa [cutoffEntryOK] using hc
    have hngt : ¬ lo > hi := not_lt.mpr hle
    obtain ⟨n, hn⟩ : ∃ n, sp.cheb2ordPair (lo, hi)
        (lo - fs / 10, hi + fs / 10) 3 att fs = .ok n :=
      hord _ (List.mem_cons_self _ cs)
    obtain ⟨h1, h2, h3⟩ := ih _ (fun c hmem => h c (List.mem_cons_of_mem _ hmem))
      (fun c hmem => hord c (List.mem_cons_of_mem _ hmem))
    refine ⟨?_, ?_, ?_⟩
    · simpa [Filter.statesBP, hngt, hn] using h1
    · simpa [Filter.statesBP, hngt, hn] using h2
    · simp only [Filter.statesBP, if_neg hngt, hn, List.getLastD_cons]
      exact h3

/-- Specification of the low-pass loop of `Filter.states` on valid entries
whose order-estimation calls succeed. -/
theorem statesLow_spec (sp : SciPy) (fs att nyq : ℚ) :
    ∀ (cs : List PyVal) (st : StateDict),
      (∀ c ∈ cs, cutoffEntryOK "low" nyq c = true) →
      (∀ c ∈ cs, ordCallOK "low" sp fs att c) →
      (Filter.statesLow sp fs att st cs).2.1 = Option.none
      ∧ (Filter.statesLow sp fs att st cs).1.map (fun s => s.cut_off) = cs.map some
      ∧ (Filter.statesLow sp fs att st cs).2.2
          = (Filter.statesLow sp fs att st cs).1.getLastD st := by
  intro cs
  induction cs with
  | nil => intro st _ _; exact ⟨rfl, rfl, rfl⟩
  | cons c cs ih =>
    intro st h hord
    have hc := h c (List.mem_cons_self c cs)
    obtain ⟨x, rfl⟩ : ∃ x, c = PyVal.num x := by
      cases c with
      | num x => exact ⟨x, rfl⟩
      | tup lo hi => simp [cutoffEntryOK] at hc
      | str s => simp [cutoffEntryOK] at hc
      | none => simp [cutoffEntryOK] at hc
    have hx : 0 < x := by simpa [cutoffEntryOK] using hc
    have hnle : ¬ x ≤ 0 := not_le.mpr hx
    obtain ⟨n, hn⟩ : ∃ n, sp.cheb2ordScalar x (x + fs / 10) 3 att fs = .ok n :=
      hord _ (List.mem_cons_self _ cs)
    obtain ⟨h1, h2, h3⟩ := ih _ (fun c hmem => h c (List.mem_cons_of_mem _ hmem))
      (fun c hmem => hord c (List.mem_cons_of_mem _ hmem))
    refine ⟨?_, ?_, ?_⟩
    · simpa [Filter.statesLow, hnle, hn] using h1
    · simpa [Filter.statesLow, hnle, hn] using h2
    · simp only [Filter.statesLow, if_neg hnle, hn, List.getLastD_cons]
      exact h3

/-- Specification of the high-pass loop of `Filter.states` on valid entries
whose order-estimation calls succeed; the threaded dict keeps its `nyquist`
key throughout. -/
theorem statesHigh_spec (sp : SciPy) (fs att nyq : ℚ) :
    ∀ (cs : List PyVal) (st : StateDict), st.nyquist = some nyq →
      (∀ c ∈ cs, cutoffEntryOK "high" nyq c = true) →
      (∀ c ∈ cs, ordCallOK "high" sp fs att c) →
      (Filter.statesHigh sp fs att st cs).2.1 = Option.none
      ∧ (Filter.statesHigh sp fs att st cs).1.map (fun s => s.cut_off) = cs.map some
      ∧ (Filter.statesHigh sp fs att st cs).2.2
          = (Filter.statesHigh sp fs att st cs).1.getLastD st := by
  intro cs
  induction cs with
  | nil => intro st _ _ _; exact ⟨rfl, rfl, rfl⟩
  | cons c cs ih =>
    intro st hny h hord
    have hc := h c (List.mem_cons_self c cs)
    obtain ⟨x, rfl⟩ : ∃ x, c = PyVal.num x := by
      cases c with
      | num x => exact ⟨x, rfl⟩
      | tup lo hi => simp [cutoffEntryOK] at hc
      | str s => simp [cutoffEntryOK] at hc
      | none => simp [cutoffEntryOK] at hc
    obtain ⟨hx, hxn⟩ : 0 < x ∧ x < nyq := by simpa [cutoffEntryOK] using hc
    have hnle : ¬ x ≤ 0 := not_le.mpr hx
    have hnge : ¬ x ≥ nyq := not_le.mpr hxn
    obtain ⟨n, hn⟩ : ∃ n, sp.cheb2ordScalar x (x - fs / 10) 3 att fs = .ok n :=
      hord _ (List.mem_cons_self _ cs)
    obtain ⟨h1, h2, h3⟩ := ih
      { st with cut_off := some (PyVal.num x), order := some n,
                attenuation := some att, btype := some "high" }
      hny (fun c hmem => h c (List.mem_cons_of_mem _ hmem))
      (fun c hmem => hord c (List.mem_cons_of_mem _ hmem))
    refine ⟨?_, ?_, ?_⟩
    · simpa [Filter.statesHigh, hnle, hny, hnge, hn] using h1
    · simpa [Filter.statesHigh, hnle, hny, hnge, hn] using h2
    · simp only [Filter.statesHigh, if_neg hnle, hny, if_neg hnge, hn,
        List.getLastD_cons]
      simpa only [hny] using h3

/-- C2 counterexample: the declared cutoff of `fLow20000` satisfies its
domain constraint (the code checks only positivity for a low-pass cutoff),
yet the run with the order estimator behaving as the real `cheb2ord` does on
the one call this run issues — raising `ValueError` for the stopband edge
24410 above the nyquist frequency 22050 — yields no descriptor at all
instead of one per declared entry, and terminates with the library error. -/
theorem Filter_states_order_failure_counterexample :
    cutoffEntryOK "low" (44100 / 2) (.num 20000) = true
    ∧ (Filter.states fLow20000 spErr 44100).yields.length
        ≠ fLow20000.cutoff.length
    ∧ (Filter.states fLow20000 spErr 44100).error
        = some (.valueError "cannot convert float NaN to integer") :=
  ⟨by decide, by decide, rfl⟩

/-- A mid-run order-estimation failure truncates the yields and leaves the
shared dict partially mutated: with declared low-pass cutoffs `[100, 20000]`
at sample rate 44100 the first entry is yielded with `cut_off = 100`, then
the second entry writes `cut_off = 20000` into the shared dict (filter.py
line 266) before its order call raises, so the run stops with one yield, the
library error, and the already-yielded descriptor now observing
`cut_off = 20000` — neither its own yield-time value nor the last yielded
snapshot. -/
theorem Filter_states_midrun_failure_mutates :
    (Filter.states ⟨"low", 60, [.num 100, .num 20000]⟩ spLowSplit
        44100).yields.length = 1
    ∧ ((Filter.states ⟨"low", 60, [.num 100, .num 20000]⟩ spLowSplit
        44100).yields.getD 0 default).cut_off = some (.num 100)
    ∧ (Filter.states ⟨"low", 60, [.num 100, .num 20000]⟩ spLowSplit
        44100).error = some (.valueError "cannot convert float NaN to integer")
    ∧ ((Filter.states ⟨"low", 60, [.num 100, .num 20000]⟩ spLowSplit
        44100).observedAfterRun 0).cut_off = some (.num 20000) :=
  ⟨by decide, by decide, rfl, by decide⟩

/-- C2 amended: for a deterministic `Filter` with a recognized band type
whose declared cutoff entries all satisfy their domain constraints and whose
order-estimation calls all succeed, one `states` call terminates without
error, yields exactly one descriptor per declared cutoff entry, in
declaration order, and at the moment of each yield the descriptor's
`cut_off` equals the corresponding entry exactly. -/
theorem Filter_states_yields_declared_cutoffs (f : FilterD) (sp : SciPy)
    (sr : ℚ)
    (hb : f.btype = "bandpass" ∨ f.btype = "low" ∨ f.btype = "high")
    (hok : ∀ c ∈ f.cutoff, cutoffEntryOK f.btype (sr / 2) c = true)
    (hord : ∀ c ∈ f.cutoff, ordCallOK f.btype sp sr f.attenuation c) :
    (Filter.states f sp sr).error = Option.none
    ∧ (Filter.states f sp sr).yields.length = f.cutoff.length
    ∧ (Filter.states f sp sr).yields.map (fun s => s.cut_off)
        = f.cutoff.map some := by
  rcases hb with hb | hb | hb <;> rw [hb] at hok hord
  · obtain ⟨h1, h2, h3⟩ := statesBP_spec sp sr f.attenuation (sr / 2) f.cutoff
      { nyquist := some (sr / 2) } hok hord
    have hlen : (Filter.statesBP sp sr f.attenuation
        { nyquist := some (sr / 2) } f.cutoff).1.length = f.cutoff.length := by
      simpa using congrArg List.length h2
    exact ⟨by simp [Filter.states, hb, h1], by simp [Filter.states, hb, hlen],
      by simp [Filter.states, hb]; exact h2⟩
  · obtain ⟨h1, h2, h3⟩ := statesLow_spec sp sr f.attenuation (sr / 2) f.cutoff
      { nyquist := some (sr / 2) } hok hord
    have hlen : (Filter.statesLow sp sr f.attenuation
        { nyquist := some (sr / 2) } f.cutoff).1.length = f.cutoff.length := by
      simpa using congrArg List.length h2
    exact ⟨by simp [Filter.states, hb, h1], by simp [Filter.states, hb, hlen],
      by simp [Filter.states, hb]; exact h2⟩
  · obtain ⟨h1, h2, h3⟩ := statesHigh_spec sp sr f.attenuation (sr / 2) f.cutoff
      { nyquist := some (sr / 2) } rfl hok hord
    have hlen : (Filter.statesHigh sp sr f.attenuation
        { nyquist := some (sr / 2) } f.cutoff).1.length = f.cutoff.length := by
      simpa using congrArg List.length h2
    exact ⟨by simp [Filter.states, hb, h1], by simp [Filter.states, hb, hlen],
      by simp [Filter.states, hb]; exact h2⟩

/-- Witness for the amended C2: a low-pass `Filter` with two declared
cutoffs, both feasible for the order estimator, yields two descriptors
carrying exactly those cutoffs. -/
theorem Filter_states_yields_declared_cutoffs_witness :
    (Filter.states fLow2 spConst 44100).error = Option.none
    ∧ (Filter.states fLow2 spConst 44100).yields.length = fLow2.cutoff.length
    ∧ (Filter.states fLow2 spConst 44100).yields.map (fun s => s.cut_off)
        = fLow2.cutoff.map some :=
  Filter_states_yields_declared_cutoffs fLow2 spConst 44100
    (Or.inr (Or.inl rfl)) (by decide)
    (fun c _ => by cases c <;> first | exact ⟨4, rfl⟩ | trivial)

/-- C9 counterexample: the low-pass `Filter` with cutoffs `[100, 200]` yields
two descriptors; the first carries `cut_off = 100` at the moment of its
yield, but, because every yield returns the same shared dict, reading the
first descriptor after the second has been produced returns `cut_off = 200`:
producing a later descriptor does change the fields of a previously yielded
one. -/
theorem Filter_states_shared_dict_counterexample :
    (Filter.states fLow2 spConst 44100).yields.length = 2
    ∧ ((Filter.states fLow2 spConst 44100).yields.getD 0 default).cut_off
        = some (.num 100)
    ∧ ((Filter.states fLow2 spConst 44100).observedAfterRun 0).cut_off
        = some (.num 200) := by
  refine ⟨by decide, by decide, by decide⟩

/-- C9 amended: at the moment of each yield the shared dict carries the
declared cutoff of that variant, but all yields alias the single dict
allocated in `AbstractFilter.states`, so once a run whose order-estimation
calls all succeed has finished, every previously yielded descriptor observes
the final descriptor's fields (the last yielded snapshot) instead of its own
yield-time fields.  (When an order-estimation call fails mid-run, the final
contents are instead the partially mutated dict, whose `cut_off` is already
the failing entry.) -/
theorem Filter_states_aliasing_amended (f : FilterD) (sp : SciPy) (sr : ℚ)
    (hb : f.btype = "bandpass" ∨ f.btype = "low" ∨ f.btype = "high")
    (hok : ∀ c ∈ f.cutoff, cutoffEntryOK f.btype (sr / 2) c = true)
    (hord : ∀ c ∈ f.cutoff, ordCallOK f.btype sp sr f.attenuation c) :
    (Filter.states f sp sr).yields.map (fun s => s.cut_off) = f.cutoff.map some
    ∧ ∀ i : ℕ, i < (Filter.states f sp sr).yields.length →
        (Filter.states f sp sr).observedAfterRun i
          = (Filter.states f sp sr).yields.getLastD default := by
  rcases hb with hb | hb | hb <;> rw [hb] at hok hord
  · obtain ⟨h1, h2, h3⟩ := statesBP_spec sp sr f.attenuation (sr / 2) f.cutoff
      { nyquist := some (sr / 2) } hok hord
    constructor
    · simp [Filter.states, hb]
      exact h2
    · intro i hi
      simp only [Filter.states, hb] at hi ⊢
      have hne : (Filter.statesBP sp sr f.attenuation
          { nyquist := some (sr / 2) } f.cutoff).1 ≠ [] :=
        List.ne_nil_of_length_pos (Nat.lt_of_le_of_lt (Nat.zero_le i) hi)
      exact h3.trans (getLastD_congr _ _ _ hne)
  · obtain ⟨h1, h2, h3⟩ := statesLow_spec sp sr f.attenuation (sr / 2) f.cutoff
      { nyquist := some (sr / 2) } hok hord
    constructor
    · simp [Filter.states, hb]
      exact h2
    · intro i hi
      simp only [Filter.states, hb] at hi ⊢
      have hne : (Filter.statesLow sp sr f.attenuation
          { nyquist := some (sr / 2) } f.cutoff).1 ≠ [] :=
        List.ne_nil_of_length_pos (Nat.lt_of_le_of_lt (Nat.zero_le i) hi)
      exact h3.trans (getLastD_congr _ _ _ hne)
  · obtain ⟨h1, h2, h3⟩ := statesHigh_spec sp sr f.attenuation (sr / 2) f.cutoff
      { nyquist := some (sr / 2) } rfl hok hord
    constructor
    · simp [Filter.states, hb]
      exact h2
    · intro i hi
      simp only [Filter.states, hb] at hi ⊢
      have hne : (Filter.statesHigh sp sr f.attenuation
          { nyquist := some (sr / 2) } f.cutoff).1 ≠ [] :=
        List.ne_nil_of_length_pos (Nat.lt_of_le_of_lt (Nat.zero_le i) hi)
      exact h3.trans (getLastD_congr _ _ _ hne)

/-- Witness for the amended C9 at the concrete two-cutoff low-pass filter. -/
theorem Filter_states_aliasing_amended_witness :
    (Filter.states fLow2 spConst 44100).yields.map (fun s => s.cut_off)
        = fLow2.cutoff.map some
    ∧ ∀ i : ℕ, i < (Filter.states fLow2 spConst 44100).yields.length →
        (Filter.states fLow2 spConst 44100).observedAfterRun i
          = (Filter.states fLow2 spConst 44100).yields.getLastD default :=
  Filter_states_aliasing_amended fLow2 spConst 44100
    (Or.inr (Or.inl rfl)) (by decide)
    (fun c _ => by cases c <;> first | exact ⟨4, rfl⟩ | trivial)

/-- C10: constructing the deterministic `Filter` with a band type outside
low, high and bandpass succeeds (the cutoff is parsed under the low/high
rules, both as a scalar and as a nonempty list of scalars), and `states`
then yields an empty sequence, with no exception, for every session. -/
theorem Filter_unknown_btype_empty_states (btype : String) (att sr : ℚ)
    (sp : SciPy) (h1 : btype ≠ "bandpass") (h2 : btype ≠ "low")
    (h3 : btype ≠ "high") :
    (∀ x : ℚ, ∃ f, Filter.init btype att (.num x) = .ok f
      ∧ f.cutoff = [.num x]
      ∧ Filter.states f sp sr = ⟨[], Option.none, { nyquist := some (sr / 2) }⟩)
    ∧ (∀ (x : ℚ) (xs : List ℚ), ∃ f,
        Filter.init btype att (.listNum (x :: xs)) = .ok f
      ∧ f.cutoff = (x :: xs).map PyVal.num
      ∧ Filter.states f sp sr
          = ⟨[], Option.none, { nyquist := some (sr / 2) }⟩) := by
  constructor
  · intro x
    refine ⟨⟨btype, att, [.num x]⟩, ?_, rfl, ?_⟩
    · simp [Filter.init, h1]
    · simp [Filter.states, h1, h2, h3]
  · intro x xs
    refine ⟨⟨btype, att, (x :: xs).map PyVal.num⟩, ?_, rfl, ?_⟩
    · simp [Filter.init, h1]
    · simp [Filter.states, h1, h2, h3]

/-- Witness for C10 at the unrecognized band type `band`. -/
theorem Filter_unknown_btype_empty_states_witness :
    (∀ x : ℚ, ∃ f, Filter.init "band" 60 (.num x) = .ok f
      ∧ f.cutoff = [.num x]
      ∧ Filter.states f spConst 44100
          = ⟨[], Option.none, { nyquist := some (44100 / 2) }⟩)
    ∧ (∀ (x : ℚ) (xs : List ℚ), ∃ f,
        Filter.init "band" 60 (.listNum (x :: xs)) = .ok f
      ∧ f.cutoff = (x :: xs).map PyVal.num
      ∧ Filter.states f spConst 44100
          = ⟨[], Option.none, { nyquist := some (44100 / 2) }⟩) :=
  Filter_unknown_btype_empty_states "band" 60 44100 spConst
    (by decide) (by decide) (by decide)

/-- C8 counterexample: `RandomLPFilter` accepts a non-positive cutoff when it
is passed as a plain Python int, because the domain check at filter.py line
339 fires only for `isinstance(cutoff, float)`: construction with the
non-positive cutoff `-1` succeeds instead of raising. -/
theorem RandomLPFilter_int_cutoff_accepted :
    RandomLPFilter.init 3 60 (.int (-1)) 1 0 = .ok ⟨3, 60, 1, 0, -1⟩
    ∧ (-1 : ℤ) ≤ 0 :=
  ⟨by decide, by decide⟩

/-- C8 amended: the random generators validate their parameters synchronously
at construction — non-positive `sigma`, `n_samples` or `attenuation` for all
three, a non-positive float or list-entry cutoff for `RandomLPFilter`, a
non-positive numeric cutoff for `RandomHPFilter`, and
`cutoff_low >= cutoff_high` or a non-positive cutoff for `RandomBPFilter` —
except that `RandomLPFilter` accepts a non-positive cutoff passed as a plain
int (its check is typed on floats and lists), in which case construction
succeeds with the int stored as the cutoff. -/
theorem construction_validation_amended :
    (∀ (n : ℤ) (att : ℚ) (c : LPCutoffArg) (s : ℚ) (r : ℤ), s ≤ 0 →
      ∃ e, RandomLPFilter.init n att c s r = .error e)
    ∧ (∀ (n : ℤ) (att : ℚ) (c : LPCutoffArg) (s : ℚ) (r : ℤ), n ≤ 0 →
      ∃ e, RandomLPFilter.init n att c s r = .error e)
    ∧ (∀ (n : ℤ) (att : ℚ) (c : LPCutoffArg) (s : ℚ) (r : ℤ), att ≤ 0 →
      ∃ e, RandomLPFilter.init n att c s r = .error e)
    ∧ (∀ (n : ℤ) (att q s : ℚ) (r : ℤ), q ≤ 0 →
      ∃ e, RandomLPFilter.init n att (.float q) s r = .error e)
    ∧ (∀ (n : ℤ) (att : ℚ) (xs : List ℚ) (s : ℚ) (r : ℤ) (x : ℚ),
        x ∈ xs → x ≤ 0 →
      ∃ e, RandomLPFilter.init n att (.list xs) s r = .error e)
    ∧ (∀ (n : ℤ) (att : ℚ) (i : ℤ) (s : ℚ) (r : ℤ),
        0 < s → 0 < n → 0 < att →
      RandomLPFilter.init n att (.int i) s r = .ok ⟨n, att, s, r, (i : ℚ)⟩)
    ∧ (∀ (n : ℤ) (att : ℚ) (c : LPCutoffArg) (s : ℚ) (r : ℤ), s ≤ 0 →
      ∃ e, RandomHPFilter.init n att c s r = .error e)
    ∧ (∀ (n : ℤ) (att : ℚ) (c : LPCutoffArg) (s : ℚ) (r : ℤ), n ≤ 0 →
      ∃ e, RandomHPFilter.init n att c s r = .error e)
    ∧ (∀ (n : ℤ) (att : ℚ) (c : LPCutoffArg) (s : ℚ) (r : ℤ), att ≤ 0 →
      ∃ e, RandomHPFilter.init n att c s r = .error e)
    ∧ (∀ (n : ℤ) (att : ℚ) (i : ℤ) (s : ℚ) (r : ℤ), (i : ℚ) ≤ 0 →
      ∃ e, RandomHPFilter.init n att (.int i) s r = .error e)
    ∧ (∀ (n : ℤ) (att q s : ℚ) (r : ℤ), q ≤ 0 →
      ∃ e, RandomHPFilter.init n att (.float q) s r = .error e)
    ∧ (∀ (n : ℤ) (att cl ch s : ℚ) (r : ℤ), s ≤ 0 →
      ∃ e, RandomBPFilter.init n att cl ch s r = .error e)
    ∧ (∀ (n : ℤ) (att cl ch s : ℚ) (r : ℤ), n ≤ 0 →
      ∃ e, RandomBPFilter.init n att cl ch s r = .error e)
    ∧ (∀ (n : ℤ) (att cl ch s : ℚ) (r : ℤ), att ≤ 0 →
      ∃ e, RandomBPFilter.init n att cl ch s r = .error e)
    ∧ (∀ (n : ℤ) (att cl ch s : ℚ) (r : ℤ), ch ≤ cl →
      ∃ e, RandomBPFilter.init n att cl ch s r = .error e)
    ∧ (∀ (n : ℤ) (att cl ch s : ℚ) (r : ℤ), cl ≤ 0 ∨ ch ≤ 0 →
      ∃ e, RandomBPFilter.init n att cl ch s r = .error e) := by
  refine ⟨?_, ?_, ?_, ?_, ?_, ?_, ?_, ?_, ?_, ?_, ?_, ?_, ?_, ?_, ?_, ?_⟩
  · intro n att c s r hs
    unfold RandomLPFilter.init
    split_ifs
    any_goals exact ⟨_, rfl⟩
  · intro n att c s r hn
    unfold RandomLPFilter.init
    split_ifs
    any_goals exact ⟨_, rfl⟩
  · intro n att c s r hatt
    unfold RandomLPFilter.init
    split_ifs
    any_goals exact ⟨_, rfl⟩
  · intro n att q s r hq
    unfold RandomLPFilter.init
    split_ifs
    any_goals exact ⟨_, rfl⟩
    all_goals simp_all
  · intro n att xs s r x hx hx0
    unfold RandomLPFilter.init
    split_ifs
    any_goals exact ⟨_, rfl⟩
  · intro n att i s r hs hn hatt
    unfold RandomLPFilter.init
    rw [if_neg (not_le.mpr hs), if_neg (not_le.mpr hn)]
    simp only [if_neg (not_le.mpr hatt)]
    rfl
  · intro n att c s r hs
    unfold RandomHPFilter.init
    split_ifs
    any_goals exact ⟨_, rfl⟩
  · intro n att c s r hn
    unfold RandomHPFilter.init
    split_ifs
    any_goals exact ⟨_, rfl⟩
  · intro n att c s r hatt
    unfold RandomHPFilter.init
    split_ifs
    any_goals exact ⟨_, rfl⟩
  · intro n att i s r hi
    unfold RandomHPFilter.init
    split_ifs
    any_goals exact ⟨_, rfl⟩
    all_goals exact ⟨.valueError
      "high pass cutoff frequency must be strictly positive and lower than nyquist frequency",
      by simp [hi]⟩
  · intro n att q s r hq
    unfold RandomHPFilter.init
    split_ifs
    any_goals exact ⟨_, rfl⟩
    all_goals exact ⟨.valueError
      "high pass cutoff frequency must be strictly positive and lower than nyquist frequency",
      by simp [hq]⟩
  · intro n att cl ch s r hs
    unfold RandomBPFilter.init
    split_ifs
    any_goals exact ⟨_, rfl⟩
  · intro n att cl ch s r hn
    unfold RandomBPFilter.init
    split_ifs
    any_goals exact ⟨_, rfl⟩
  · intro n att cl ch s r hatt
    unfold RandomBPFilter.init
    split_ifs
    any_goals exact ⟨_, rfl⟩
  · intro n att cl ch s r hlh
    unfold RandomBPFilter.init
    split_ifs
    any_goals exact ⟨_, rfl⟩
  · intro n att cl ch s r hz
    unfold RandomBPFilter.init
    split_ifs
    any_goals exact ⟨_, rfl⟩

/-- Witness for the amended C8: zero sigma rejected, inverted bandpass
cutoffs rejected, and the int-typed non-positive low-pass cutoff accepted. -/
theorem construction_validation_amended_witness :
    (∃ e, RandomLPFilter.init 3 60 (.int 8000) 0 0 = .error e)
    ∧ (∃ e, RandomBPFilter.init 3 60 5000 1000 1 42 = .error e)
    ∧ RandomLPFilter.init 3 60 (.int (-1)) 1 0 = .ok ⟨3, 60, 1, 0, -1⟩ := by
  obtain ⟨lp_s, lp_n, lp_a, lp_f, lp_l, lp_i, hp_s, hp_n, hp_a, hp_i, hp_f,
    bp_s, bp_n, bp_a, bp_o, bp_z⟩ := construction_validation_amended
  refine ⟨lp_s 3 60 (.int 8000) 0 0 le_rfl, bp_o 3 60 5000 1000 1 42 (by norm_num), ?_⟩
  have h := lp_i 3 60 (-1) 1 0 (by norm_num) (by norm_num) (by norm_num)
  exact h.trans (by decide)

/-- C3 (code bug): a validly constructed `RandomBPFilter` never yields a
single descriptor, because `states` evaluates the unbound name `fs` at
filter.py line 565 and dies with a `NameError` in its first iteration,
right after the rejection loop and before the first yield.  The third
conjunct exhibits the concrete failing run of the spec example. -/
theorem RandomBPFilter_states_raises_NameError :
    RandomBPFilter.init 5 60 500 2000 10 42 = .ok ⟨5, 60, 10, 42, 500, 2000⟩
    ∧ (∀ (g : RandomBPFilterD) (sp : SciPy) (sr : ℚ) (draws : ℕ → ℚ)
        (fuel : ℕ), (RandomBPFilter.states g sp sr draws fuel).yields = [])
    ∧ (∀ sr : ℚ,
        RandomBPFilter.states ⟨5, 60, 10, 42, 500, 2000⟩ spConst sr draws0 0
          = ⟨[], some (.nameError "fs"),
              { nyquist := some (sr / 2), btype := some "bandpass",
                cut_off := some (.tup 500 2000) }⟩) := by
  refine ⟨by decide, ?_, fun sr => rfl⟩
  intro g sp sr draws fuel
  show (RandomBPFilter.statesLoop g sp draws fuel
      { nyquist := some (sr / 2) } 0 g.n_samples.toNat).1 = []
  cases hn : g.n_samples.toNat with
  | zero => rfl
  | succ n =>
    cases h : RandomBPFilter.whileRedraw draws fuel (draws 0) (draws 1) 2 with
    | none => simp [RandomBPFilter.statesLoop, h]
    | some v =>
      obtain ⟨high, low, k1⟩ := v
      simp [RandomBPFilter.statesLoop, h, RandomBPFilter.localFs]

/-- C4 (code bug): validly constructed `RandomLPFilter` and `RandomHPFilter`
generators never yield a descriptor: `states` evaluates the unbound name
`freq` (filter.py lines 367 and 457) in its first iteration and dies with a
`NameError` before the first yield, for every session and random stream. -/
theorem RandomLPHP_states_raise_NameError :
    RandomLPFilter.init 3 60 (.int 8000) 1 0 = .ok ⟨3, 60, 1, 0, 8000⟩
    ∧ (∀ (sp : SciPy) (sr : ℚ) (draws : ℕ → ℚ),
        RandomLPFilter.states ⟨3, 60, 1, 0, 8000⟩ sp sr draws
          = ⟨[], some (.nameError "freq"),
              { nyquist := some (sr / 2), btype := some "low" }⟩)
    ∧ RandomHPFilter.init 3 60 (.int 8000) 1 0 = .ok ⟨3, 60, 1, 0, 8000⟩
    ∧ (∀ (sp : SciPy) (sr : ℚ) (draws : ℕ → ℚ),
        RandomHPFilter.states ⟨3, 60, 1, 0, 8000⟩ sp sr draws
          = ⟨[], some (.nameError "freq"),
              { nyquist := some (sr / 2), btype := some "high" }⟩) :=
  ⟨by decide, fun _ _ _ => rfl, by decide, fun _ _ _ => rfl⟩

end Muda
